import Mathlib

/-!
Verification of the auto-approve audit engine (audit-auto-approve):
a shallow embedding of the pattern classifier and health aggregator,
with theorems checking the design document's claims.

The JavaScript regular-expression tests are embedded as executable
Boolean matchers over `List Char`; `RegExp.test` semantics (an
unanchored search for any match) becomes an existential scan over
suffixes, implemented by structural recursion so every definition
is computable by the kernel.
-/

/-- Whitespace class of the source's regex `\s` (ASCII part: space, tab,
newline, carriage return, vertical tab, form feed). -/
def jsWs (c : Char) : Bool :=
  c == ' ' || c == '\t' || c == '\n' || c == '\r' || c == '\x0b' || c == '\x0c'

/-- Single-quote character (code 39). -/
def sQuoteChar : Char := Char.ofNat 39

/-- Double-quote character (code 34). -/
def dQuoteChar : Char := Char.ofNat 34

/-- Backtick character (code 96). -/
def backtickChar : Char := Char.ofNat 96

/-- Opening-brace character (code 123). -/
def openBraceChar : Char := Char.ofNat 123

/-- Closing-brace character (code 125). -/
def closeBraceChar : Char := Char.ofNat 125

/-- Null byte (code 0). -/
def nullChar : Char := Char.ofNat 0

/-- Matcher combinator: literal token `a`, then continue with `k` on the rest. -/
def litThen (a : List Char) (k : List Char → Bool) (s : List Char) : Bool :=
  a.isPrefixOf s && k (s.drop a.length)

/-- Matcher combinator: a single literal character, then continue with `k`. -/
def charThen (c : Char) (k : List Char → Bool) : List Char → Bool
  | [] => false
  | d :: r => d == c && k r

/-- Matcher combinator for `\s*` followed by `k` (zero or more whitespace). -/
def wsStarThen (k : List Char → Bool) : List Char → Bool
  | [] => k []
  | c :: r => k (c :: r) || (jsWs c && wsStarThen k r)

/-- Matcher combinator for `\s+` followed by `k` (one or more whitespace). -/
def wsPlusThen (k : List Char → Bool) : List Char → Bool
  | [] => false
  | c :: r => jsWs c && wsStarThen k r

/-- Matcher combinator for `.*` followed by `k` (any run of non-newline characters). -/
def dotStarThen (k : List Char → Bool) : List Char → Bool
  | [] => k []
  | c :: r => k (c :: r) || (c != '\n' && dotStarThen k r)

/-- Trivial continuation: accept whatever remains. -/
def anyTail (_ : List Char) : Bool := true

/-- Continuation accepting only when every remaining character is whitespace,
embedding a trailing `\s*$`. -/
def wsToEnd (s : List Char) : Bool := s.all jsWs

/-- Unanchored search: try the matcher `f` at every suffix of the input,
mirroring `RegExp.test` for an unanchored pattern. -/
def scanMatch (f : List Char → Bool) : List Char → Bool
  | [] => f []
  | c :: r => f (c :: r) || scanMatch f r

/-- Substring containment, embedding a regex of plain literal characters. -/
def containsStr (tok s : String) : Bool :=
  scanMatch (fun t => tok.toList.isPrefixOf t) s.toList

/-- Anchored prefix test, embedding `^`-anchored literal regexes
(kept on lists so the kernel can evaluate it). -/
def startsWithStr (pre s : String) : Bool :=
  pre.toList.isPrefixOf s.toList

/-- Embeds `/a\s/`-style regexes: token followed by at least one whitespace. -/
def tokWsAny (a : String) (s : String) : Bool :=
  scanMatch (litThen a.toList (wsPlusThen anyTail)) s.toList

/-- Embeds `/a\s+b/`-style regexes. -/
def tokWsTok (a b : String) (s : String) : Bool :=
  scanMatch (litThen a.toList (wsPlusThen (litThen b.toList anyTail))) s.toList

/-- Embeds `/a\s+b\s+c/`-style regexes. -/
def tokWsTokWsTok (a b c : String) (s : String) : Bool :=
  scanMatch
    (litThen a.toList
      (wsPlusThen (litThen b.toList (wsPlusThen (litThen c.toList anyTail)))))
    s.toList

/-- Embeds `/a\s+b\s+.*c/`-style regexes (package-manager install flags). -/
def tokWsTokWsDotTok (a b c : String) (s : String) : Bool :=
  scanMatch
    (litThen a.toList
      (wsPlusThen
        (litThen b.toList (wsPlusThen (dotStarThen (litThen c.toList anyTail))))))
    s.toList

/-- Head test for the shell alternation `(sh|bash|zsh)`. -/
def shellNameHead (t : List Char) : Bool :=
  "sh".toList.isPrefixOf t || "bash".toList.isPrefixOf t || "zsh".toList.isPrefixOf t

/-- Embeds `/base.*\|\s*(sh|bash|zsh)/` (download piped to a shell). -/
def pipeToShell (base : String) (s : String) : Bool :=
  scanMatch (litThen base.toList (dotStarThen (charThen '|' (wsStarThen shellNameHead)))) s.toList

/-- Embeds the backtick command-substitution regex: backtick, any run, backtick. -/
def backtickPair (s : String) : Bool :=
  scanMatch (charThen backtickChar (dotStarThen (charThen backtickChar anyTail))) s.toList

/-- Embeds `/\$\(.*\)/` (dollar-paren command substitution). -/
def dollarParen (s : String) : Bool :=
  scanMatch (charThen '$' (charThen '(' (dotStarThen (charThen ')' anyTail)))) s.toList

/-- Embeds `/>\s*\/dev\/null/` (output suppression). -/
def redirectDevNull (s : String) : Bool :=
  scanMatch (charThen '>' (wsStarThen (litThen "/dev/null".toList anyTail))) s.toList

/-- Embeds `/tok\s*$/`: token, optional whitespace, end of string. -/
def trailingTok (tok : String) (s : String) : Bool :=
  scanMatch (litThen tok.toList wsToEnd) s.toList

/-- Embeds `/.next/` from the safe-target table: the dot is the regex
any-character, so this is any non-newline character followed by "next". -/
def anyCharNext (s : String) : Bool :=
  scanMatch
    (fun t =>
      match t with
      | c :: r => (c != '\n') && "next".toList.isPrefixOf r
      | [] => false)
    s.toList

/-- The source's RISKY_PATTERNS table, one Boolean matcher per regex,
in source order. -/
def RISKY_PATTERNS : List (String → Bool) := [
  -- File system dangers
  fun s => containsStr "**" s,          -- /\*\*/
  fun s => containsStr ".." s,          -- /\.\./
  fun s => startsWithStr "/" s,         -- /^\//
  fun s => startsWithStr "~/" s,        -- /^~\//
  fun s => containsStr "/.." s,         -- /\/\.\./
  fun s => containsStr "//" s,          -- /\/\/+/
  -- System and privilege escalation
  fun s => containsStr "sudo" s,
  fun s => tokWsAny "su" s,             -- /su\s/
  fun s => tokWsTok "chmod" "777" s,
  fun s => tokWsTok "chown" "root" s,
  fun s => tokWsTok "chown" "0" s,
  -- System operations
  fun s => tokWsTok "dd" "if=" s,
  fun s => containsStr "mkfs" s,
  fun s => containsStr "fdisk" s,
  fun s => containsStr "format" s,
  fun s => containsStr "shutdown" s,
  fun s => containsStr "reboot" s,
  fun s => containsStr "halt" s,
  fun s => containsStr "poweroff" s,
  fun s => containsStr "killall" s,
  fun s => tokWsTok "pkill" "-9" s,
  -- Network and remote execution
  fun s => pipeToShell "curl" s,
  fun s => pipeToShell "wget" s,
  fun s => tokWsAny "ssh" s,
  fun s => tokWsAny "scp" s,
  fun s => containsStr "rsync" s,
  -- Code execution
  fun s => containsStr "eval" s,
  fun s => containsStr "exec" s,
  fun s => containsStr "system" s,
  fun s => containsStr "popen" s,
  fun s => containsStr "subprocess" s,
  fun s => containsStr "spawn" s,
  fun s => tokWsTok "node" "-e" s,
  fun s => tokWsTok "python" "-c" s,
  fun s => tokWsTok "perl" "-e" s,
  fun s => tokWsTok "ruby" "-e" s,
  -- Sensitive files and directories
  fun s => containsStr "~/.ssh" s,
  fun s => containsStr "/etc/passwd" s,
  fun s => containsStr "/etc/shadow" s,
  fun s => containsStr "/etc/sudoers" s,
  fun s => containsStr "/root" s,
  fun s => containsStr "/home" s,
  fun s => containsStr "/var/log" s,
  fun s => containsStr "/proc" s,
  fun s => containsStr "/sys" s,
  -- Database operations
  fun s => tokWsAny "mysql" s,
  fun s => tokWsAny "psql" s,
  fun s => tokWsAny "mongo" s,
  fun s => containsStr "redis-cli" s,
  -- Package managers with dangerous flags
  fun s => tokWsTokWsDotTok "npm" "install" "-g" s,
  fun s => tokWsTokWsDotTok "pip" "install" "--user" s,
  fun s => tokWsTok "apt-get" "install" s,
  fun s => tokWsTok "yum" "install" s,
  fun s => tokWsTok "brew" "install" s,
  -- Git operations that could be dangerous
  fun s => tokWsTokWsTok "git" "push" "--force" s,
  fun s => tokWsTokWsTok "git" "reset" "--hard" s,
  fun s => tokWsTokWsTok "git" "clean" "-fd" s,
  -- Dangerous shell constructs
  fun s => backtickPair s,
  fun s => dollarParen s,
  fun s => redirectDevNull s,
  fun s => trailingTok "&" s,
  -- Unterminated or malformed patterns
  fun s => trailingTok ";" s,
  fun s => trailingTok "|" s,
  fun s => trailingTok "&&" s,
  fun s => trailingTok "||" s,
  -- Path manipulation
  fun s => containsStr "PATH=" s,
  fun s => containsStr "LD_LIBRARY_PATH=" s,
  fun s => containsStr "LD_PRELOAD=" s
]

/-- The source's SAFE_RM_TARGETS table (common build artifacts), in order.
Note `/.next/` has an unescaped dot: any character followed by "next". -/
def SAFE_RM_TARGETS : List (String → Bool) := [
  fun s => containsStr "node_modules" s,
  fun s => containsStr "build" s,
  fun s => containsStr "dist" s,
  fun s => anyCharNext s,
  fun s => containsStr "out" s,
  fun s => containsStr ".cache" s,
  fun s => containsStr ".tmp" s,
  fun s => containsStr "temp" s,
  fun s => containsStr "tmp" s
]

/-- The source's DANGEROUS_RM_PATTERNS table, in order (the traversal
regex appears twice in the source and is kept twice here). -/
def DANGEROUS_RM_PATTERNS : List (String → Bool) := [
  fun s => containsStr "*" s,           -- /\*/
  fun s => containsStr ".." s,          -- /\.\./
  fun s => startsWithStr "/" s,         -- /^\//
  fun s => startsWithStr "~/" s,        -- /^~\//
  fun s => containsStr ".." s           -- /\.\./ (duplicate in source)
]

/-- Embeds the guard regex `/rm\s+-rf/`. -/
def rmRfTest (s : String) : Bool := tokWsTok "rm" "-rf" s

/-- Embeds `isDangerousRmRf` from the source. -/
def isDangerousRmRf (pattern : String) : Bool :=
  if rmRfTest pattern then
    let hasDangerousPattern := DANGEROUS_RM_PATTERNS.any (fun dangerous => dangerous pattern)
    if hasDangerousPattern then true
    else
      let hasSafeTarget := SAFE_RM_TARGETS.any (fun safe => safe pattern)
      !hasSafeTarget
  else false

/-- Occurrences of a character in a string, embedding `(pattern.match(/c/g) || []).length`. -/
def countChar (c : Char) (s : String) : Nat :=
  (s.toList.filter (fun d => d == c)).length

/-- Result of the syntax validator. -/
structure SyntaxResult where
  valid : Bool
  issues : List String
  deriving DecidableEq

/-- The issue list built by `validatePatternSyntax`, in the source's push
order: this concatenation of conditional singleton blocks is exactly the
sequence of `issues.push` calls. -/
def validatePatternSyntaxIssues (pattern : String) : List String :=
  (if countChar sQuoteChar pattern % 2 != 0 then ["unterminated single quotes"] else []) ++
  (if countChar dQuoteChar pattern % 2 != 0 then ["unterminated double quotes"] else []) ++
  (if countChar backtickChar pattern % 2 != 0 then ["unterminated backticks"] else []) ++
  (if countChar '(' pattern != countChar ')' pattern then ["unbalanced parentheses"] else []) ++
  (if countChar '[' pattern != countChar ']' pattern then ["unbalanced brackets"] else []) ++
  (if countChar openBraceChar pattern != countChar closeBraceChar pattern then ["unbalanced braces"] else []) ++
  (if containsStr "/../" pattern || containsStr "\\..\\" pattern then ["directory traversal (..)"] else []) ++
  (if containsStr (String.mk [nullChar]) pattern then ["null bytes detected"] else []) ++
  (if pattern.length > 1000 then ["pattern too long"] else [])

/-- Embeds `validatePatternSyntax` from the source: valid iff no issues. -/
def validatePatternSyntaxFn (pattern : String) : SyntaxResult :=
  let issues := validatePatternSyntaxIssues pattern
  { valid := issues.isEmpty, issues := issues }

/-- Character class `[A-Za-z0-9_-]` used by the safe template and the
prefix-extraction regex. -/
def identChar (c : Char) : Bool :=
  (('A' ≤ c && c ≤ 'Z') || ('a' ≤ c && c ≤ 'z')) || c.isDigit || c == '-' || c == '_'

/-- All remaining characters are in the identifier class (tail of `[A-Za-z0-9_-]+$`). -/
def allIdentEnd : List Char → Bool
  | [] => true
  | c :: r => identChar c && allIdentEnd r

/-- Nonempty identifier run to end of string (`[A-Za-z0-9_-]+$`). -/
def identPlusEnd : List Char → Bool
  | [] => false
  | c :: r => identChar c && allIdentEnd r

/-- After at least one identifier character: the rest of
`[A-Za-z0-9_-]+(:[A-Za-z0-9_-]+)?$` — more identifier characters, an
optional colon-delimited second identifier, then end. -/
def identSegEnd : List Char → Bool
  | [] => true
  | ':' :: r => identPlusEnd r
  | c :: r => identChar c && identSegEnd r

/-- Embeds the test of the regex built by `buildSafeTemplate`:
`^:(alt)-[A-Za-z0-9_-]+(:[A-Za-z0-9_-]+)?$|^:clean$`, where `alt`
alternates over the (regex-escaped, hence literal) allowed prefixes. -/
def buildSafeTemplateTest (prefixes : List String) (pattern : String) : Bool :=
  (match pattern.toList with
   | ':' :: rest =>
     prefixes.any (fun p =>
       p.toList.isPrefixOf rest &&
       (match rest.drop p.toList.length with
        | '-' :: r =>
          (match r with
           | c :: r2 => identChar c && identSegEnd r2
           | [] => false)
        | _ => false))
   | _ => false) || pattern == ":clean"

/-- Embeds the prefix extraction `pattern.match` against the anchored
regex `^:([a-zA-Z0-9_-]+)-` (a leading colon, a captured run of class
characters, then a literal hyphen), defaulting to "unknown".
With backtracking, the captured group is the
maximal run of class characters after the leading colon, cut at its last
hyphen (the group must stay nonempty); no hyphen in the run means no match. -/
def extractPfx (pattern : String) : String :=
  match pattern.toList with
  | ':' :: rest =>
    let run := rest.takeWhile identChar
    (match run.reverse.dropWhile (fun c => c != '-') with
     | _ :: revGroup => if revGroup.isEmpty then "unknown" else String.mk revGroup.reverse
     | [] => "unknown")
  | _ => "unknown"

/-- A JSON value stored under a rule pattern: a boolean, or anything else
(non-boolean values are reported, never classified). -/
inductive JsonVal where
  | jbool (b : Bool)
  | jother
  deriving DecidableEq

/-- The value found under the "chat.tools.terminal.autoApprove" key of a
parsed settings file. -/
inductive AutoApproveMap where
  | nullish
  | wrongShape
  | objectMap (entries : List (String × JsonVal))
  deriving DecidableEq

/-- Outcome of loading one settings file: a parse failure (the source's
`loadSettings` returns null), or parsed content. -/
inductive LoadResult where
  | parseFail
  | loaded (m : AutoApproveMap)
  deriving DecidableEq

/-- Per-prefix health statistics (the source's PrefixHealth record; the
`prefix` field is named `pfx` here). -/
structure PrefixHealth where
  pfx : String
  totalPatterns : Nat
  riskyPatterns : Nat
  safePatterns : Nat
  patterns : List String
  riskyList : List String
  deriving DecidableEq

/-- A per-file finding; an absent `nonBoolean` field is the empty list. -/
structure Finding where
  file : String
  riskyPatterns : List String
  nonBoolean : List String
  deriving DecidableEq

/-- Fresh health record for a prefix, as initialized by the aggregator. -/
def initHealth (p : String) : PrefixHealth :=
  { pfx := p, totalPatterns := 0, riskyPatterns := 0, safePatterns := 0,
    patterns := [], riskyList := [] }

/-- Update the health entry of prefix `p` in place, appending a fresh entry
first when none exists — the JS Map keeps insertion order. -/
def updateHealth : List PrefixHealth → String → (PrefixHealth → PrefixHealth) → List PrefixHealth
  | [], p, f => [f (initHealth p)]
  | h :: t, p, f => if h.pfx = p then f h :: t else h :: updateHealth t p f

/-- The aggregate test over the RISKY_PATTERNS table
(`RISKY_PATTERNS.some((riskyRegex) => riskyRegex.test(pattern))`). -/
def matchesRiskyPatterns (pattern : String) : Bool :=
  RISKY_PATTERNS.any (fun riskyRegex => riskyRegex pattern)

/-- Embeds the allow-check: with explicit prefixes, test the safe template;
with none, allow everything. -/
def isAllowedBy (explicitPrefixes : List String) (pattern : String) : Bool :=
  if explicitPrefixes.length > 0 then buildSafeTemplateTest explicitPrefixes pattern
  else true

/-- Embeds the per-rule verdict
`isRiskyPattern || isDangerousRm || !isAllowed || !syntaxValidation.valid`. -/
def classifyRisky (explicitPrefixes : List String) (pattern : String) : Bool :=
  let syntaxValidation := validatePatternSyntaxFn pattern
  let isRiskyPattern := matchesRiskyPatterns pattern
  let isDangerousRm := isDangerousRmRf pattern
  let isAllowed := isAllowedBy explicitPrefixes pattern
  isRiskyPattern || isDangerousRm || !isAllowed || !syntaxValidation.valid

/-- The descriptive string pushed for a syntax-invalid rule. -/
def syntaxIssueMsg (issues : List String) : String :=
  "syntax issues: " ++ String.intercalate ", " issues

/-- Accumulator while walking one file's rule map: the (global) prefix
health map and the file's risky and non-boolean lists. -/
structure FileAcc where
  health : List PrefixHealth
  risky : List String
  nonBoolean : List String
  deriving DecidableEq

/-- One iteration of the rule-map loop. Non-boolean values are recorded and
skipped; boolean values (true or false alike — the loop never reads the
boolean again) are tallied into their prefix's health and classified. -/
def stepEntry (explicitPrefixes : List String) (acc : FileAcc) (e : String × JsonVal) : FileAcc :=
  match e.2 with
  | JsonVal.jother => { acc with nonBoolean := acc.nonBoolean ++ [e.1] }
  | JsonVal.jbool _ =>
    let pattern := e.1
    let pfx := extractPfx pattern
    let syntaxValidation := validatePatternSyntaxFn pattern
    let risky1 :=
      if !syntaxValidation.valid then acc.risky ++ [syntaxIssueMsg syntaxValidation.issues]
      else acc.risky
    if classifyRisky explicitPrefixes pattern then
      { health :=
          updateHealth acc.health pfx (fun h =>
            { h with totalPatterns := h.totalPatterns + 1,
                     patterns := h.patterns ++ [pattern],
                     riskyPatterns := h.riskyPatterns + 1,
                     riskyList := h.riskyList ++ [pattern] }),
        risky := risky1 ++ [pattern],
        nonBoolean := acc.nonBoolean }
    else
      { health :=
          updateHealth acc.health pfx (fun h =>
            { h with totalPatterns := h.totalPatterns + 1,
                     patterns := h.patterns ++ [pattern],
                     safePatterns := h.safePatterns + 1 }),
        risky := risky1,
        nonBoolean := acc.nonBoolean }

/-- Walk a rule map's entries, starting from the incoming health map and
empty per-file lists. -/
def fileAccOf (explicitPrefixes : List String) (health : List PrefixHealth)
    (entries : List (String × JsonVal)) : FileAcc :=
  entries.foldl (stepEntry explicitPrefixes) { health := health, risky := [], nonBoolean := [] }

/-- Process one settings file: parse failures and missing or wrong-shape
rule maps contribute nothing; otherwise walk the entries and emit a Finding
exactly when the risky or non-boolean list is nonempty. -/
def processFile (explicitPrefixes : List String) (health : List PrefixHealth)
    (file : String) (data : LoadResult) : List PrefixHealth × Option Finding :=
  match data with
  | LoadResult.parseFail => (health, none)
  | LoadResult.loaded AutoApproveMap.nullish => (health, none)
  | LoadResult.loaded AutoApproveMap.wrongShape => (health, none)
  | LoadResult.loaded (AutoApproveMap.objectMap entries) =>
    let acc := fileAccOf explicitPrefixes health entries
    if acc.risky.length != 0 || acc.nonBoolean.length != 0 then
      (acc.health, some { file := file, riskyPatterns := acc.risky, nonBoolean := acc.nonBoolean })
    else
      (acc.health, none)

/-- The audit's options (the source's `opts`; `allowPrefix` is `allowPrefixArg`
here, optional fields default to false; the settings-file override and
directory walking are I/O collaborators, so the resolved file list is passed
to the audit separately). -/
structure AuditOpts where
  allowPrefixArg : Option String
  failOnRisk : Bool
  json : Bool
  silent : Bool
  scanPrefixes : Bool
  deriving DecidableEq

/-- JS truthiness of the allow-prefix option (undefined and "" are falsy). -/
def allowPrefixTruthy (o : Option String) : Bool :=
  match o with
  | none => false
  | some s => s != ""

/-- Embeds `opts.allowPrefix ? opts.allowPrefix.split(",").map(trim).filter(Boolean) : []`. -/
def parsePrefixes (o : Option String) : List String :=
  match o with
  | none => []
  | some s =>
    if s != "" then ((s.splitOn ",").map (fun x => x.trim)).filter (fun x => x != "")
    else []

/-- Observable outcome of one audit run: the findings and health map, whether
the prefix-health report was rendered, whether the warning lines were rendered,
and the process exit code it signals. -/
structure AuditResult where
  findings : List Finding
  prefixHealth : List PrefixHealth
  reportShown : Bool
  warningsShown : Bool
  exitCode : Nat
  deriving DecidableEq

/-- One step of the audit's per-file fold: thread the health map through
`processFile` and append the file's Finding when one is produced
(finding order follows file encounter order). -/
def stepFileFold (explicitPrefixes : List String)
    (st : List PrefixHealth × List Finding) (fd : String × LoadResult) :
    List PrefixHealth × List Finding :=
  match processFile explicitPrefixes st.1 fd.1 fd.2 with
  | (h2, some f) => (h2, st.2 ++ [f])
  | (h2, none) => (h2, st.2)

/-- Embeds `auditAutoApprove` over an already-resolved list of
(file, load outcome) pairs: fold every file through `processFile`, then
derive the reporting and exit decisions exactly as the source does
(`shouldShowWarnings = !opts.silent || opts.failOnRisk`, within the non-JSON
findings branch; exit 1 iff findings exist and failOnRisk). -/
def auditAutoApprove (opts : AuditOpts) (files : List (String × LoadResult)) : AuditResult :=
  let explicitPrefixes := parsePrefixes opts.allowPrefixArg
  let st := files.foldl (stepFileFold explicitPrefixes) ([], [])
  { findings := st.2,
    prefixHealth := st.1,
    reportShown := opts.scanPrefixes || !allowPrefixTruthy opts.allowPrefixArg,
    warningsShown := !opts.json && st.2.length != 0 && (!opts.silent || opts.failOnRisk),
    exitCode := if st.2.length != 0 && opts.failOnRisk then 1 else 0 }

/-- The percentage printed by `reportPrefixHealth`:
`Math.round(riskyPatterns / totalPatterns * 100)` (0 when total is 0).
The source computes in floating point; this is exact half-up rounding,
which agrees on the concrete entries evaluated in this development. -/
def riskPercentage (h : PrefixHealth) : Nat :=
  if h.totalPatterns > 0 then
    (200 * h.riskyPatterns + h.totalPatterns) / (2 * h.totalPatterns)
  else 0

/-- Status marker of a health line: healthy (no risky), critical (no safe),
otherwise mixed. -/
inductive HealthStatus where
  | healthy
  | critical
  | mixed
  deriving DecidableEq

/-- Embeds the marker choice in `reportPrefixHealth`. -/
def healthStatus (h : PrefixHealth) : HealthStatus :=
  if h.riskyPatterns = 0 then HealthStatus.healthy
  else if h.safePatterns = 0 then HealthStatus.critical
  else HealthStatus.mixed

/-- The per-prefix bookkeeping invariant: risky and safe tallies partition
the total, and the pattern list has exactly one entry per tallied pattern. -/
def healthInv (h : PrefixHealth) : Prop :=
  h.riskyPatterns + h.safePatterns = h.totalPatterns ∧
  h.patterns.length = h.totalPatterns

/-- Modelled from the spec: the count of unescaped single quotes, scanning
with escape-awareness — a backslash suppresses the next character's special
meaning. The source's `validatePatternSyntax` has no escape handling (it
counts every quote character); this definition follows the spec's words so
the two can be compared. -/
def specUnescapedSingleQuotes : List Char → Nat
  | [] => 0
  | '\\' :: _ :: rest => specUnescapedSingleQuotes rest
  | c :: rest => (if c == sQuoteChar then 1 else 0) + specUnescapedSingleQuotes rest

/-- Backslash, quote, quote: one unescaped quote (odd), two quote characters
in total (even). -/
def escapedQuotePattern : String := String.mk ['\\', sQuoteChar, sQuoteChar]

/-- A single quote character: one quote, odd under either count. -/
def oddQuotePattern : String := String.mk [sQuoteChar]

/-- Modelled from the spec: a pattern containing a recursive-force-delete
invocation (`rm -rf`) whose argument is an absolute path (the argument
begins with a slash). -/
def specRmRfAbsoluteArg (s : String) : Bool :=
  scanMatch
    (litThen "rm".toList
      (wsPlusThen (litThen "-rf".toList (wsPlusThen (litThen "/".toList anyTail)))))
    s.toList

/-- Auto-scan options: no allow-prefix, prefix scanning requested,
no fail-on-risk, human-readable output. -/
def autoScanOpts : AuditOpts :=
  { allowPrefixArg := none, failOnRisk := false, json := false, silent := false,
    scanPrefixes := true }

/-- One settings file whose only rule is a disabled (false) risky pattern. -/
def disabledRuleFiles : List (String × LoadResult) :=
  [("settings.json", LoadResult.loaded (AutoApproveMap.objectMap
    [("sudo", JsonVal.jbool false)]))]

/-- The Scenario D rule map: two enabled risky patterns under the ":bad:"
leading token. -/
def scenarioDFiles : List (String × LoadResult) :=
  [("settings.json", LoadResult.loaded (AutoApproveMap.objectMap
    [(":bad:rm -rf /", JsonVal.jbool true), (":bad:rm -rf *", JsonVal.jbool true)]))]

/-- The single prefix-health entry the audit produces for Scenario D. -/
def scenarioDEntry : PrefixHealth :=
  { pfx := "unknown", totalPatterns := 2, riskyPatterns := 2, safePatterns := 0,
    patterns := [":bad:rm -rf /", ":bad:rm -rf *"],
    riskyList := [":bad:rm -rf /", ":bad:rm -rf *"] }

/-- One settings file with a single enabled risky rule. -/
def riskyEnabledFiles : List (String × LoadResult) :=
  [("settings.json", LoadResult.loaded (AutoApproveMap.objectMap
    [("sudo", JsonVal.jbool true)]))]

/-- Options with silent and fail-on-risk both set, in human-readable mode. -/
def silentFailOpts : AuditOpts :=
  { allowPrefixArg := none, failOnRisk := true, json := false, silent := true,
    scanPrefixes := false }

/-- Helper: the source's truthiness test `risky.length || nonBoolean.length`
holds exactly when one of the lists is nonempty. -/
theorem lengthsNonzero_iff (a b : List String) :
    ((a.length != 0 || b.length != 0) = true) ↔ (a ≠ [] ∨ b ≠ []) := by
  cases a <;> cases b <;> simp

/-- Helper: a fresh health record satisfies the bookkeeping invariant. -/
theorem healthInv_init (p : String) : healthInv (initHealth p) := ⟨rfl, rfl⟩

/-- Helper: the risky-branch health update preserves the invariant. -/
theorem healthInv_riskyUpd (pattern : String) (h : PrefixHealth) (hh : healthInv h) :
    healthInv { h with totalPatterns := h.totalPatterns + 1,
                       patterns := h.patterns ++ [pattern],
                       riskyPatterns := h.riskyPatterns + 1,
                       riskyList := h.riskyList ++ [pattern] } := by
  obtain ⟨h1, h2⟩ := hh
  constructor
  · show h.riskyPatterns + 1 + h.safePatterns = h.totalPatterns + 1
    omega
  · show (h.patterns ++ [pattern]).length = h.totalPatterns + 1
    simp [h2]

/-- Helper: the safe-branch health update preserves the invariant. -/
theorem healthInv_safeUpd (pattern : String) (h : PrefixHealth) (hh : healthInv h) :
    healthInv { h with totalPatterns := h.totalPatterns + 1,
                       patterns := h.patterns ++ [pattern],
                       safePatterns := h.safePatterns + 1 } := by
  obtain ⟨h1, h2⟩ := hh
  constructor
  · show h.riskyPatterns + (h.safePatterns + 1) = h.totalPatterns + 1
    omega
  · show (h.patterns ++ [pattern]).length = h.totalPatterns + 1
    simp [h2]

/-- Helper: updating one prefix entry with an invariant-preserving function
keeps every entry of the health map invariant. -/
theorem updateHealth_inv {f : PrefixHealth → PrefixHealth}
    (hf : ∀ x, healthInv x → healthInv (f x)) :
    ∀ (m : List PrefixHealth) (p : String), (∀ x ∈ m, healthInv x) →
      ∀ x ∈ updateHealth m p f, healthInv x := by
  intro m
  induction m with
  | nil =>
    intro p hm y hy
    simp only [updateHealth, List.mem_singleton] at hy
    subst hy
    exact hf _ (healthInv_init p)
  | cons hd tl ih =>
    intro p hm y hy
    simp only [updateHealth] at hy
    by_cases hc : hd.pfx = p
    · rw [if_pos hc] at hy
      rcases List.mem_cons.mp hy with hy | hy
      · rw [hy]; exact hf _ (hm hd (List.mem_cons_self _ _))
      · exact hm y (List.mem_cons_of_mem _ hy)
    · rw [if_neg hc] at hy
      rcases List.mem_cons.mp hy with hy | hy
      · rw [hy]; exact hm hd (List.mem_cons_self _ _)
      · exact ih p (fun z hz => hm z (List.mem_cons_of_mem _ hz)) y hy

/-- Helper: one rule-map iteration keeps every health entry invariant. -/
theorem stepEntry_inv (eps : List String) (acc : FileAcc) (e : String × JsonVal)
    (hm : ∀ x ∈ acc.health, healthInv x) :
    ∀ x ∈ (stepEntry eps acc e).health, healthInv x := by
  obtain ⟨p, v⟩ := e
  cases v with
  | jother => simpa [stepEntry] using hm
  | jbool b =>
    cases hcl : classifyRisky eps p
    · intro x hx
      refine updateHealth_inv (fun y hy => healthInv_safeUpd p y hy)
        acc.health (extractPfx p) hm x ?_
      simpa [stepEntry, hcl] using hx
    · intro x hx
      refine updateHealth_inv (fun y hy => healthInv_riskyUpd p y hy)
        acc.health (extractPfx p) hm x ?_
      simpa [stepEntry, hcl] using hx

/-- Helper: walking a whole rule map keeps every health entry invariant. -/
theorem fileAcc_inv (eps : List String) (entries : List (String × JsonVal)) :
    ∀ (acc : FileAcc), (∀ x ∈ acc.health, healthInv x) →
      ∀ x ∈ (entries.foldl (stepEntry eps) acc).health, healthInv x := by
  induction entries with
  | nil => intro acc h; simpa using h
  | cons e t ih =>
    intro acc h
    simp only [List.foldl_cons]
    exact ih _ (stepEntry_inv eps acc e h)

/-- Helper: processing one file keeps every health entry invariant. -/
theorem processFile_inv (eps : List String) (health : List PrefixHealth)
    (file : String) (d : LoadResult)
    (hm : ∀ x ∈ health, healthInv x) :
    ∀ x ∈ (processFile eps health file d).1, healthInv x := by
  cases d with
  | parseFail => simpa [processFile] using hm
  | loaded m =>
    cases m with
    | nullish => simpa [processFile] using hm
    | wrongShape => simpa [processFile] using hm
    | objectMap es =>
      simp only [processFile]
      split
      · exact fileAcc_inv eps es _ hm
      · exact fileAcc_inv eps es _ hm

/-- Helper: the audit's per-file fold keeps every health entry invariant. -/
theorem auditFold_inv (eps : List String) (files : List (String × LoadResult)) :
    ∀ (st : List PrefixHealth × List Finding), (∀ x ∈ st.1, healthInv x) →
      ∀ x ∈ (files.foldl (stepFileFold eps) st).1, healthInv x := by
  induction files with
  | nil => intro st h; simpa using h
  | cons fd t ih =>
    intro st h
    simp only [List.foldl_cons]
    apply ih
    simp only [stepFileFold]
    have hp := processFile_inv eps st.1 fd.1 fd.2 h
    cases hpf : processFile eps st.1 fd.1 fd.2 with
    | mk h2 of =>
      cases of <;> simpa [hpf] using hp

/-- Claim C1: for every classified rule and allow-prefix list, the verdict is
risky if and only if the pattern fails syntax validation, or matches the
danger taxonomy, or the dangerous-removal check flags it, or explicit
prefixes were supplied and the pattern misses the anchored allow template;
with no explicit prefixes the allow check is skipped (treated as allowed). -/
theorem classify_risky_iff (explicitPrefixes : List String) (p : String) :
    classifyRisky explicitPrefixes p = true ↔
      ((validatePatternSyntaxFn p).valid = false ∨
       matchesRiskyPatterns p = true ∨
       isDangerousRmRf p = true ∨
       (explicitPrefixes ≠ [] ∧ buildSafeTemplateTest explicitPrefixes p = false)) := by
  cases explicitPrefixes with
  | nil =>
    cases hv : (validatePatternSyntaxFn p).valid <;>
      cases hr : matchesRiskyPatterns p <;>
        cases hd : isDangerousRmRf p <;>
          simp_all [classifyRisky, isAllowedBy]
  | cons a t =>
    cases hv : (validatePatternSyntaxFn p).valid <;>
      cases hr : matchesRiskyPatterns p <;>
        cases hd : isDangerousRmRf p <;>
          cases ht : buildSafeTemplateTest (a :: t) p <;>
            simp_all [classifyRisky, isAllowedBy]

/-- Claim C1 witness: the verdict on a concrete taxonomy-matching pattern,
obtained through the equivalence. -/
theorem classify_risky_iff_witness : classifyRisky [] "sudo" = true :=
  (classify_risky_iff [] "sudo").mpr (Or.inr (Or.inl (by decide)))

/-- Claim C2 (amended): the aggregator ignores the boolean value of an
entry — a disabled (false) rule is classified and tallied exactly like an
enabled one; only non-boolean entries escape classification, being recorded
in the non-boolean list with the health map untouched. -/
theorem boolean_value_ignored (eps : List String) (acc : FileAcc) (p : String) (b : Bool) :
    stepEntry eps acc (p, JsonVal.jbool b) = stepEntry eps acc (p, JsonVal.jbool true) ∧
    stepEntry eps acc (p, JsonVal.jother) =
      { acc with nonBoolean := acc.nonBoolean ++ [p] } :=
  ⟨rfl, rfl⟩

/-- Claim C2 counterexample: a rule map whose only entry is the disabled
rule "sudo" -> false still yields a Finding and a fully risky health tally,
refuting the claim that disabled entries are skipped entirely. -/
theorem disabled_rule_still_classified :
    (auditAutoApprove autoScanOpts disabledRuleFiles).findings =
      [{ file := "settings.json", riskyPatterns := ["sudo"], nonBoolean := [] }] ∧
    (auditAutoApprove autoScanOpts disabledRuleFiles).prefixHealth =
      [{ pfx := "unknown", totalPatterns := 1, riskyPatterns := 1, safePatterns := 0,
         patterns := ["sudo"], riskyList := ["sudo"] }] := by decide

/-- Claim C3 counterexample: a pattern holding a backslash-escaped quote and
one unescaped quote has an odd unescaped-quote count, yet the validator —
which counts every quote character without escape-awareness — sees two
quotes and reports the pattern valid with no issues. -/
theorem quote_escape_cex :
    specUnescapedSingleQuotes escapedQuotePattern.toList % 2 = 1 ∧
    (validatePatternSyntaxFn escapedQuotePattern).valid = true ∧
    (validatePatternSyntaxFn escapedQuotePattern).issues = [] := by decide

/-- Claim C3 (amended): if a pattern contains an odd total number of
single-quote characters (escaped or not — the validator has no
escape-awareness), validation fails and the issues include the
unterminated-single-quote marker. -/
theorem odd_quotes_invalid (p : String) (h : countChar sQuoteChar p % 2 = 1) :
    (validatePatternSyntaxFn p).valid = false ∧
    "unterminated single quotes" ∈ (validatePatternSyntaxFn p).issues := by
  unfold validatePatternSyntaxFn validatePatternSyntaxIssues
  rw [h]
  simp

/-- Claim C3 witness: a single quote character is an odd count and is
rejected with the marker. -/
theorem odd_quotes_invalid_witness :
    countChar sQuoteChar oddQuotePattern % 2 = 1 ∧
    ((validatePatternSyntaxFn oddQuotePattern).valid = false ∧
     "unterminated single quotes" ∈ (validatePatternSyntaxFn oddQuotePattern).issues) :=
  ⟨by decide, odd_quotes_invalid oddQuotePattern (by decide)⟩

/-- Claim C4 counterexample: "rm -rf /build" is a recursive-force-delete of
an absolute path, yet the removal check returns false: the absolute-path
danger regex is anchored to the start of the whole pattern (which starts
with "rm", not "/"), and the text mentions the safe target "build". -/
theorem rm_rf_absolute_cex :
    specRmRfAbsoluteArg "rm -rf /build" = true ∧
    isDangerousRmRf "rm -rf /build" = false := by decide

/-- Claim C4 (amended): a pattern containing a recursive-force-delete that
matches none of the fixed safe build-artifact regexes is flagged dangerous,
regardless of any allow-list and of the rest of the pattern text. -/
theorem rm_rf_no_safe_target_dangerous (p : String)
    (h1 : rmRfTest p = true)
    (h2 : SAFE_RM_TARGETS.any (fun safe => safe p) = false) :
    isDangerousRmRf p = true := by
  unfold isDangerousRmRf
  simp only [h1]
  cases hd : DANGEROUS_RM_PATTERNS.any (fun dangerous => dangerous p) <;>
    simp [hd, h2]

/-- Claim C4 witness: "rm -rf /etc" contains the removal invocation, matches
no safe target, and is flagged. -/
theorem rm_rf_no_safe_target_dangerous_witness :
    rmRfTest "rm -rf /etc" = true ∧
    SAFE_RM_TARGETS.any (fun safe => safe "rm -rf /etc") = false ∧
    isDangerousRmRf "rm -rf /etc" = true :=
  ⟨by decide, by decide, rm_rf_no_safe_target_dangerous "rm -rf /etc" (by decide) (by decide)⟩

/-- Claim C5: evaluating the audit on the Scenario D rule map (":bad:rm -rf /"
and ":bad:rm -rf *", both true; no allow-prefix; prefix scan requested). The
health map holds exactly one entry reporting 0 of 2 patterns safe (100%
risky, critical marker) — but it is keyed "unknown", not "bad": the prefix
regex demands a hyphen after the leading token, which ":bad:..." lacks,
while the repo's own test expects the key "bad" for this very input. -/
theorem scenario_d_prefix_key :
    (auditAutoApprove autoScanOpts scenarioDFiles).reportShown = true ∧
    (auditAutoApprove autoScanOpts scenarioDFiles).prefixHealth = [scenarioDEntry] ∧
    scenarioDEntry.pfx = "unknown" ∧
    scenarioDEntry.safePatterns = 0 ∧
    scenarioDEntry.totalPatterns = 2 ∧
    riskPercentage scenarioDEntry = 100 ∧
    healthStatus scenarioDEntry = HealthStatus.critical := by decide

/-- Claim C6: after ingesting any batch of configuration files, every entry
of the accumulated prefix-health map satisfies
riskyPatterns + safePatterns = totalPatterns and patterns.length = totalPatterns. -/
theorem prefix_health_invariant (opts : AuditOpts) (files : List (String × LoadResult))
    (h : PrefixHealth) (hmem : h ∈ (auditAutoApprove opts files).prefixHealth) :
    h.riskyPatterns + h.safePatterns = h.totalPatterns ∧
    h.patterns.length = h.totalPatterns := by
  have := auditFold_inv (parsePrefixes opts.allowPrefixArg) files ([], [])
    (by intro x hx; simp at hx) h
  apply this
  simpa [auditAutoApprove] using hmem

/-- Claim C6 witness: the invariant read off a concrete audit run with a
single safe rule. -/
theorem prefix_health_invariant_witness :
    ({ pfx := "a", totalPatterns := 1, riskyPatterns := 0, safePatterns := 1,
       patterns := [":a-b"], riskyList := [] } : PrefixHealth).riskyPatterns +
      ({ pfx := "a", totalPatterns := 1, riskyPatterns := 0, safePatterns := 1,
         patterns := [":a-b"], riskyList := [] } : PrefixHealth).safePatterns =
      ({ pfx := "a", totalPatterns := 1, riskyPatterns := 0, safePatterns := 1,
         patterns := [":a-b"], riskyList := [] } : PrefixHealth).totalPatterns ∧
    ({ pfx := "a", totalPatterns := 1, riskyPatterns := 0, safePatterns := 1,
       patterns := [":a-b"], riskyList := [] } : PrefixHealth).patterns.length =
      ({ pfx := "a", totalPatterns := 1, riskyPatterns := 0, safePatterns := 1,
         patterns := [":a-b"], riskyList := [] } : PrefixHealth).totalPatterns :=
  prefix_health_invariant autoScanOpts
    [("settings.json", LoadResult.loaded (AutoApproveMap.objectMap
      [(":a-b", JsonVal.jbool true)]))]
    { pfx := "a", totalPatterns := 1, riskyPatterns := 0, safePatterns := 1,
      patterns := [":a-b"], riskyList := [] }
    (by decide)

/-- Claim C7 counterexample: with JSON output requested, a failing audit
(findings present, fail-on-risk on, silent on) still signals exit code 1,
but the warning lines are not emitted — the JSON branch replaces them —
refuting the unconditional warning-emission part of the claim. -/
theorem json_silent_failure_cex :
    (auditAutoApprove
      { allowPrefixArg := none, failOnRisk := true, json := true, silent := true,
        scanPrefixes := false } riskyEnabledFiles).findings ≠ [] ∧
    (auditAutoApprove
      { allowPrefixArg := none, failOnRisk := true, json := true, silent := true,
        scanPrefixes := false } riskyEnabledFiles).exitCode = 1 ∧
    (auditAutoApprove
      { allowPrefixArg := none, failOnRisk := true, json := true, silent := true,
        scanPrefixes := false } riskyEnabledFiles).warningsShown = false := by decide

/-- Claim C7 (amended): the audit signals exit code 1 exactly when findings
exist and fail-on-risk was requested (and 0 otherwise); and in
human-readable (non-JSON) mode the warning lines are emitted whenever
findings exist and silent is off or fail-on-risk is on — in particular even
under silent mode when the failure exit is triggered. -/
theorem exit_code_and_warning_emission (opts : AuditOpts) (files : List (String × LoadResult)) :
    ((auditAutoApprove opts files).exitCode = 1 ↔
      ((auditAutoApprove opts files).findings ≠ [] ∧ opts.failOnRisk = true)) ∧
    ((auditAutoApprove opts files).exitCode = 0 ∨ (auditAutoApprove opts files).exitCode = 1) ∧
    (opts.json = false → (auditAutoApprove opts files).findings ≠ [] →
      (opts.silent = false ∨ opts.failOnRisk = true) →
      (auditAutoApprove opts files).warningsShown = true) := by
  simp only [auditAutoApprove]
  generalize (files.foldl (stepFileFold (parsePrefixes opts.allowPrefixArg)) ([], [])).2 = L
  refine ⟨?_, ?_, ?_⟩
  · cases L <;> cases hf : opts.failOnRisk <;> simp
  · cases L <;> cases hf : opts.failOnRisk <;> simp
  · intro hj hL hsw
    cases L with
    | nil => exact absurd rfl hL
    | cons f t =>
      rcases hsw with hs | hf
      · simp [hj, hs]
      · simp [hj, hf]

/-- Claim C7 witness: a failing silent non-JSON run still emits the warning
lines. -/
theorem exit_code_and_warning_emission_witness :
    silentFailOpts.json = false ∧
    (auditAutoApprove silentFailOpts riskyEnabledFiles).findings ≠ [] ∧
    (auditAutoApprove silentFailOpts riskyEnabledFiles).warningsShown = true :=
  ⟨by decide, by decide,
    (exit_code_and_warning_emission silentFailOpts riskyEnabledFiles).2.2
      (by decide) (by decide) (Or.inr (by decide))⟩

/-- Claim C8: a file produces a Finding if and only if its load result is an
actual rule-map object whose walk yields a nonempty risky list or a nonempty
non-boolean list; parse failures and missing or wrong-shape maps (and empty
maps, whose walk yields empty lists) produce none. -/
theorem finding_iff (eps : List String) (health : List PrefixHealth)
    (file : String) (d : LoadResult) :
    ((processFile eps health file d).2.isSome = true) ↔
      (∃ entries, d = LoadResult.loaded (AutoApproveMap.objectMap entries) ∧
        ((fileAccOf eps health entries).risky ≠ [] ∨
         (fileAccOf eps health entries).nonBoolean ≠ [])) := by
  cases d with
  | parseFail => simp [processFile]
  | loaded m =>
    cases m with
    | nullish => simp [processFile]
    | wrongShape => simp [processFile]
    | objectMap es =>
      simp only [processFile]
      split_ifs with hc
      · simp only [Option.isSome_some, true_iff]
        exact ⟨es, rfl, (lengthsNonzero_iff _ _).mp hc⟩
      · simp only [Option.isSome_none, Bool.false_eq_true, false_iff]
        rintro ⟨entries, heq, hP⟩
        cases heq
        exact hc ((lengthsNonzero_iff _ _).mpr hP)

/-- Claim C8 witness: a file with one enabled risky rule produces a Finding,
obtained through the equivalence. -/
theorem finding_iff_witness :
    (processFile [] [] "settings.json"
      (LoadResult.loaded (AutoApproveMap.objectMap
        [("sudo", JsonVal.jbool true)]))).2.isSome = true :=
  (finding_iff [] [] "settings.json"
      (LoadResult.loaded (AutoApproveMap.objectMap [("sudo", JsonVal.jbool true)]))).mpr
    ⟨[("sudo", JsonVal.jbool true)], rfl, Or.inl (by decide)⟩

/-- Claim C9: an enabled rule whose pattern fails syntax validation
contributes two entries to the file's risky list — the descriptive
"syntax issues: ..." string and, separately, the pattern text itself —
so the risky list may contain strings that are not rule patterns. -/
theorem syntax_invalid_two_entries (eps : List String) (acc : FileAcc) (p : String)
    (h : (validatePatternSyntaxFn p).valid = false) :
    (stepEntry eps acc (p, JsonVal.jbool true)).risky =
      acc.risky ++ [syntaxIssueMsg (validatePatternSyntaxFn p).issues, p] := by
  have hcl : classifyRisky eps p = true := by
    simp [classifyRisky, h]
  simp [stepEntry, h, hcl]

/-- Claim C9 witness: the unbalanced-parenthesis pattern ":a-(" yields
exactly the two entries. -/
theorem syntax_invalid_two_entries_witness :
    (validatePatternSyntaxFn ":a-(").valid = false ∧
    (stepEntry [] { health := [], risky := [], nonBoolean := [] }
        (":a-(", JsonVal.jbool true)).risky =
      [] ++ [syntaxIssueMsg (validatePatternSyntaxFn ":a-(").issues, ":a-("] :=
  ⟨by decide,
    syntax_invalid_two_entries [] { health := [], risky := [], nonBoolean := [] } ":a-(" (by decide)⟩

/-- Claim C10: a pattern with no occurrence of "rm", whitespace, and the
exact flag spelling "-rf" is never flagged by the removal check; in
particular the equivalent spellings "rm -fr /" and "rm -r -f /" are not
flagged. -/
theorem no_rmrf_not_flagged :
    (∀ p : String, rmRfTest p = false → isDangerousRmRf p = false) ∧
    isDangerousRmRf "rm -fr /" = false ∧
    isDangerousRmRf "rm -r -f /" = false := by
  refine ⟨?_, by decide, by decide⟩
  intro p hp
  simp [isDangerousRmRf, hp]

/-- Claim C10 witness: a concrete pattern without the "rm -rf" spelling is
not flagged. -/
theorem no_rmrf_not_flagged_witness :
    rmRfTest "rm -fr build" = false ∧ isDangerousRmRf "rm -fr build" = false :=
  ⟨by decide, no_rmrf_not_flagged.1 "rm -fr build" (by decide)⟩
